import Mathlib

/-!
Verification of the camera server's shared-camera concurrency core
(`app/camera/controller.py`, `app/timelapse.py`, `app/recorder.py`).

The Python code is shallowly embedded: the mutable object state
(`controls_info`, `stored_defaults`, `original_hardware_defaults`,
resolution fields, recorder/timelapse state) becomes explicit state records,
dicts become association lists keyed by control name, and the external
`v4l2-ctl` subprocess is an oracle parameter (its exit status for a
control write, the parsed control map for a control read, the parsed
format list for a resolution read).  Machine integers in the Python code
are arbitrary-precision, so `Int`/`Nat` model them exactly.
-/

namespace CameraServer

/-- Control kinds recognised by `get_camera_controls`: lines tagged
`(int)`, `(bool)` or `(menu)`; other kinds are skipped. -/
inductive CtrlType
  | int
  | bool
  | menu
deriving DecidableEq, Repr

/-- One control descriptor as stored in `controls_info`:
`{'type', 'min', 'max', 'step', 'default', 'current'}`. -/
structure Ctrl where
  type : CtrlType
  min : Int
  max : Int
  step : Int
  default : Int
  current : Int
deriving DecidableEq, Repr

/-- The `controls_info` dict, keyed by control name (insertion order kept). -/
abbrev Controls := List (String × Ctrl)

/-- Python dict lookup `d[name]` / `name in d` on an association list:
the first entry with the matching key. -/
def alookup {β : Type} : List (String × β) → String → Option β
  | [], _ => none
  | (n, v) :: rest, name => if n = name then some v else alookup rest name

/-- Python dict update `d[name] = v` (update the entry if the key is
present, append it otherwise). -/
def aset {β : Type} : List (String × β) → String → β → List (String × β)
  | [], name, v => [(name, v)]
  | (n, w) :: rest, name, v =>
    if n = name then (n, v) :: rest else (n, w) :: aset rest name v

/-- `self.controls_info[name]['current'] = value`: update the `current`
field of the named descriptor, leaving everything else unchanged. -/
def setCurrent : Controls → String → Int → Controls
  | [], _, _ => []
  | (n, c) :: rest, name, value =>
    if n = name then (n, { c with current := value }) :: rest
    else (n, c) :: setCurrent rest name value

/-- Embeds `ThreadSafeCameraController.set_control_value(control_name, value)`.
`hwOk` is the oracle for the `v4l2-ctl --set-ctrl` subprocess
(`returncode == 0`).  If the name is registered, the value is validated
against the recorded bounds and rejected locally when out of range;
otherwise the write is forwarded unconditionally.  On hardware success the
registered descriptor's `current` is updated.  Returns the boolean result
and the new `controls_info`. -/
def set_control_value (controls : Controls) (name : String) (value : Int)
    (hwOk : Bool) : Bool × Controls :=
  match alookup controls name with
  | some ctrl =>
    if value < ctrl.min ∨ ctrl.max < value then (false, controls)
    else if hwOk then (true, setCurrent controls name value)
    else (false, controls)
  | none => (hwOk, controls)

/-- A whole sequence of `set_control_value` calls, each with its own
hardware outcome; returns the final `controls_info`. -/
def run_set_calls (controls : Controls) (calls : List (String × Int × Bool)) :
    Controls :=
  calls.foldl (fun cs c => (set_control_value cs c.1 c.2.1 c.2.2).2) controls

/-- A descriptor's `current` value lies within its recorded bounds. -/
def ctrlInBounds (c : Ctrl) : Prop := c.min ≤ c.current ∧ c.current ≤ c.max

instance (c : Ctrl) : Decidable (ctrlInBounds c) := by
  unfold ctrlInBounds; infer_instance

/-- Every registered descriptor's `current` value is within bounds. -/
def allInBounds (controls : Controls) : Prop :=
  ∀ p ∈ controls, ctrlInBounds p.2

instance (controls : Controls) : Decidable (allInBounds controls) := by
  unfold allInBounds; infer_instance

theorem alookup_mem {β : Type} {l : List (String × β)} {name : String} {v : β}
    (h : alookup l name = some v) : (name, v) ∈ l := by
  induction l with
  | nil => simp [alookup] at h
  | cons p rest ih =>
    obtain ⟨n, w⟩ := p
    by_cases hn : n = name
    · subst hn
      simp [alookup] at h
      subst h
      exact List.mem_cons_self _ _
    · simp [alookup, hn] at h
      exact List.mem_cons_of_mem _ (ih h)

theorem setCurrent_preserves {cs : Controls} {name : String} {v : Int}
    (h : allInBounds cs)
    (hv : ∀ c : Ctrl, alookup cs name = some c → c.min ≤ v ∧ v ≤ c.max) :
    allInBounds (setCurrent cs name v) := by
  induction cs with
  | nil => intro p hp; simp [setCurrent] at hp
  | cons q rest ih =>
    obtain ⟨n, c⟩ := q
    by_cases hn : n = name
    · subst hn
      have hb := hv c (by simp [alookup])
      intro p hp
      simp [setCurrent] at hp
      rcases hp with hp | hp
      · subst hp; exact hb
      · exact h p (List.mem_cons_of_mem _ hp)
    · intro p hp
      simp [setCurrent, hn] at hp
      rcases hp with hp | hp
      · subst hp; exact h _ (List.mem_cons_self _ _)
      · exact ih (fun q hq => h q (List.mem_cons_of_mem _ hq))
          (fun c' hc' => hv c' (by simp [alookup, hn]; exact hc')) p hp

theorem set_control_value_preserves (cs : Controls) (n : String) (v : Int)
    (hw : Bool) (h : allInBounds cs) :
    allInBounds (set_control_value cs n v hw).2 := by
  unfold set_control_value
  cases hl : alookup cs n with
  | none => exact h
  | some ctrl =>
    show allInBounds (if v < ctrl.min ∨ ctrl.max < v then (false, cs)
      else if hw = true then (true, setCurrent cs n v) else (false, cs)).2
    by_cases hr : v < ctrl.min ∨ ctrl.max < v
    · rw [if_pos hr]; exact h
    · rw [if_neg hr]
      push_neg at hr
      cases hw with
      | false => simpa using h
      | true =>
        simp only [if_true]
        exact setCurrent_preserves h
          (fun c hc => by rw [hl] at hc; cases hc; exact ⟨hr.1, hr.2⟩)

theorem run_set_calls_preserves (cs : Controls)
    (calls : List (String × Int × Bool)) (h : allInBounds cs) :
    allInBounds (run_set_calls cs calls) := by
  induction calls generalizing cs with
  | nil => exact h
  | cons c rest ih =>
    exact ih _ (set_control_value_preserves cs c.1 c.2.1 c.2.2 h)

theorem alookup_setCurrent_self (cs : Controls) (name : String) (v : Int)
    {c : Ctrl} (h : alookup cs name = some c) :
    alookup (setCurrent cs name v) name = some { c with current := v } := by
  induction cs with
  | nil => simp [alookup] at h
  | cons q rest ih =>
    obtain ⟨n, w⟩ := q
    by_cases hn : n = name
    · subst hn
      simp [alookup] at h
      subst h
      simp [setCurrent, alookup]
    · simp [alookup, hn] at h
      simp [setCurrent, alookup, hn]
      exact ih h

/-- Claim C1: for every registered control and any sequence of
`set_control_value` calls, `current` stays within `[min, max]` (given
the registry starts in bounds); an out-of-range write returns failure
and leaves the registry unchanged; an in-range write whose hardware
apply fails also leaves it unchanged; and only an in-range write with a
successful hardware apply updates `current` to the requested value. -/
theorem set_control_value_bounds_invariant (controls : Controls)
    (calls : List (String × Int × Bool)) (h : allInBounds controls) :
    allInBounds (run_set_calls controls calls) ∧
    (∀ (name : String) (value : Int) (hwOk : Bool) (ctrl : Ctrl),
      alookup controls name = some ctrl →
      ((value < ctrl.min ∨ ctrl.max < value) →
        set_control_value controls name value hwOk = (false, controls)) ∧
      (ctrl.min ≤ value → value ≤ ctrl.max →
        set_control_value controls name value false = (false, controls)) ∧
      (ctrl.min ≤ value → value ≤ ctrl.max →
        (set_control_value controls name value true).1 = true ∧
        alookup (set_control_value controls name value true).2 name =
          some { ctrl with current := value })) := by
  refine ⟨run_set_calls_preserves controls calls h, ?_⟩
  intro name value hwOk ctrl hl
  refine ⟨?_, ?_, ?_⟩
  · intro hr
    simp [set_control_value, hl, hr]
  · intro h1 h2
    have hcond : ¬ (value < ctrl.min ∨ ctrl.max < value) := by
      push_neg; exact ⟨h1, h2⟩
    simp [set_control_value, hl, hcond]
  · intro h1 h2
    have hcond : ¬ (value < ctrl.min ∨ ctrl.max < value) := by
      push_neg; exact ⟨h1, h2⟩
    constructor
    · simp [set_control_value, hl, hcond]
    · rw [show (set_control_value controls name value true).2 =
          setCurrent controls name value by simp [set_control_value, hl, hcond]]
      exact alookup_setCurrent_self controls name value hl

/-- Witness for C1 at a concrete registry and call sequence. -/
theorem set_control_value_bounds_invariant_witness :
    allInBounds
      [("brightness", ⟨CtrlType.int, -64, 64, 1, 0, 0⟩),
       ("gain", ⟨CtrlType.int, 0, 100, 1, 32, 32⟩)] ∧
    allInBounds (run_set_calls
      [("brightness", ⟨CtrlType.int, -64, 64, 1, 0, 0⟩),
       ("gain", ⟨CtrlType.int, 0, 100, 1, 32, 32⟩)]
      [("brightness", 200, true), ("gain", 50, true), ("gain", 70, false)]) :=
  ⟨by decide,
    (set_control_value_bounds_invariant
      [("brightness", ⟨CtrlType.int, -64, 64, 1, 0, 0⟩),
       ("gain", ⟨CtrlType.int, 0, 100, 1, 32, 32⟩)]
      [("brightness", 200, true), ("gain", 50, true), ("gain", 70, false)]
      (by decide)).1⟩

/-- Claim C10: a `set_control_value` call whose name is not registered in
`controls_info` performs no bounds validation: the write is forwarded to
the hardware regardless of the value, the call returns exactly the
hardware outcome (`True` on success), and the registry is left untouched
(no `current` value is recorded). -/
theorem set_control_value_unregistered (controls : Controls) (name : String)
    (value : Int) (hwOk : Bool) (h : alookup controls name = none) :
    set_control_value controls name value hwOk = (hwOk, controls) := by
  simp [set_control_value, h]

/-- Witness for C10: an unregistered name with a wildly out-of-range
value is still forwarded and succeeds, changing nothing. -/
theorem set_control_value_unregistered_witness :
    alookup [("gain", (⟨CtrlType.int, 0, 100, 1, 32, 32⟩ : Ctrl))]
      "focus_absolute" = none ∧
    set_control_value [("gain", ⟨CtrlType.int, 0, 100, 1, 32, 32⟩)]
      "focus_absolute" 999999 true =
      (true, [("gain", ⟨CtrlType.int, 0, 100, 1, 32, 32⟩)]) :=
  ⟨by decide,
    set_control_value_unregistered
      [("gain", ⟨CtrlType.int, 0, 100, 1, 32, 32⟩)]
      "focus_absolute" 999999 true (by decide)⟩

/-- The per-control branch of `calculate_default_values`: Python `//` is
floor division, embedded as `Int.fdiv`. -/
def calculate_default_for (name : String) (ctrl : Ctrl) : Int :=
  match ctrl.type with
  | CtrlType.int => (ctrl.min + ctrl.max).fdiv 2
  | CtrlType.bool => ctrl.min
  | CtrlType.menu =>
    if name = "auto_exposure" ∧ 1 ≤ ctrl.max then 1 else ctrl.min

/-- Embeds `ThreadSafeCameraController.calculate_default_values()`:
builds the defaults dict over `controls_info` in iteration order. -/
def calculate_default_values (controls : Controls) : List (String × Int) :=
  controls.map (fun p => (p.1, calculate_default_for p.1 p.2))

theorem fdiv_two_eq_floor (a : Int) : a.fdiv 2 = ⌊(a : ℚ) / 2⌋ := by
  rw [show ((2 : ℚ)) = ((2 : ℕ) : ℚ) by norm_num,
    Rat.floor_intCast_div_natCast]
  rw [Int.fdiv_eq_ediv _ (by norm_num : (0 : Int) ≤ 2)]
  norm_num

/-- Claim C4: `calculate_default_values` is a pure function of the
control map; every integer-range control's default is
`floor((min + max) / 2)` (real floor, matching Python `//`), every
boolean control's default is `min`, and every menu control's default is
`min` except `auto_exposure`, which gets 1 whenever its `max ≥ 1`. -/
theorem calculate_default_values_spec (controls : Controls) (name : String)
    (ctrl : Ctrl) (h : (name, ctrl) ∈ controls) :
    (name,
      match ctrl.type with
      | CtrlType.int => ⌊((ctrl.min + ctrl.max : Int) : ℚ) / 2⌋
      | CtrlType.bool => ctrl.min
      | CtrlType.menu =>
        if name = "auto_exposure" ∧ 1 ≤ ctrl.max then 1 else ctrl.min) ∈
      calculate_default_values controls := by
  have : calculate_default_for name ctrl =
      match ctrl.type with
      | CtrlType.int => ⌊((ctrl.min + ctrl.max : Int) : ℚ) / 2⌋
      | CtrlType.bool => ctrl.min
      | CtrlType.menu =>
        if name = "auto_exposure" ∧ 1 ≤ ctrl.max then 1 else ctrl.min := by
    unfold calculate_default_for
    cases ctrl.type with
    | int => exact fdiv_two_eq_floor _
    | bool => rfl
    | menu => rfl
  rw [← this]
  exact List.mem_map.mpr ⟨(name, ctrl), h, rfl⟩

/-- Witness for C4 on a concrete registry: the integer default of a
control with bounds `[-64, 63]` is the midpoint floor `-1` (a
negative-sum case, where floor and truncation differ). -/
theorem calculate_default_values_spec_witness :
    (⌊(((-64 : Int) + 63 : Int) : ℚ) / 2⌋ : Int) = -1 ∧
    ("brightness", (⌊(((-64 : Int) + 63 : Int) : ℚ) / 2⌋ : Int)) ∈
      calculate_default_values
        [("brightness", ⟨CtrlType.int, -64, 63, 1, 0, 0⟩),
         ("auto_exposure", ⟨CtrlType.menu, 0, 3, 1, 3, 3⟩)] := by
  constructor
  · rw [← fdiv_two_eq_floor]; decide
  · exact calculate_default_values_spec
      [("brightness", ⟨CtrlType.int, -64, 63, 1, 0, 0⟩),
       ("auto_exposure", ⟨CtrlType.menu, 0, 3, 1, 3, 3⟩)]
      "brightness" ⟨CtrlType.int, -64, 63, 1, 0, 0⟩ (by decide)

/-! ## The capture loop's failure counter (`_capture_loop`) -/

/-- Observable outcome of one `_capture_loop` iteration: the read and the
JPEG encode both succeeded, the read succeeded but the encode failed, or
the read returned no frame.  (Iterations where the handle is closed just
sleep and touch no state.) -/
inductive ReadEvent
  | readOk
  | encodeFail
  | readFail
deriving DecidableEq, Repr

/-- The failure-counter update of one iteration body: `failures += 1` on a
failed read or a failed encode, unchanged on success. -/
def bump_failures (failures : Nat) (ev : ReadEvent) : Nat :=
  match ev with
  | ReadEvent.readOk => failures
  | ReadEvent.encodeFail => failures + 1
  | ReadEvent.readFail => failures + 1

/-- One iteration of `_capture_loop`'s failure bookkeeping: after the
(possibly incremented) counter, `if failures > 10` reinitializes the
camera and resets the counter.  Returns the counter carried to the next
iteration and whether a reinitialization fired. -/
def capture_iteration (failures : Nat) (ev : ReadEvent) : Nat × Bool :=
  if 10 < bump_failures failures ev then (0, true) else (bump_failures failures ev, false)

/-- Running `_capture_loop` over a sequence of iteration outcomes:
returns the final counter and how many reinitializations fired. -/
def capture_run (failures : Nat) : List ReadEvent → Nat × Nat
  | [] => (failures, 0)
  | ev :: rest =>
    let step := capture_iteration failures ev
    let tail := capture_run step.1 rest
    (tail.1, (if step.2 then 1 else 0) + tail.2)

def consecutive_failures_go : Nat → Nat → List ReadEvent → Nat
  | cur, best, [] => Nat.max best cur
  | _, best, ReadEvent.readOk :: rest =>
    consecutive_failures_go 0 best rest
  | cur, best, ReadEvent.encodeFail :: rest =>
    consecutive_failures_go (cur + 1) (Nat.max best (cur + 1)) rest
  | cur, best, ReadEvent.readFail :: rest =>
    consecutive_failures_go (cur + 1) (Nat.max best (cur + 1)) rest

/-- Longest run of consecutive failed iterations in an event sequence. -/
def max_consecutive_failures (evs : List ReadEvent) : Nat :=
  consecutive_failures_go 0 0 evs

theorem capture_iteration_le (f : Nat) (ev : ReadEvent) :
    (capture_iteration f ev).1 ≤ 10 := by
  unfold capture_iteration
  split
  · simp
  · next h => simpa using Nat.le_of_not_lt h

theorem capture_run_le (evs : List ReadEvent) (f : Nat) (hf : f ≤ 10) :
    (capture_run f evs).1 ≤ 10 := by
  induction evs generalizing f with
  | nil => exact hf
  | cons ev rest ih =>
    simp only [capture_run]
    exact ih _ (capture_iteration_le f ev)

/-- Counterexample to claim C2: the counter is NOT consecutive.  In the
sequence below the longest run of consecutive failures is 6 (< 10), yet a
reinitialization still fires, because a successful read leaves the
counter unchanged (`capture_iteration 5 readOk = (5, false)`, not 0):
failures accumulate across successes until the total exceeds 10. -/
theorem capture_loop_consecutive_counterexample :
    max_consecutive_failures
      [ReadEvent.readFail, ReadEvent.readFail, ReadEvent.readFail,
       ReadEvent.readFail, ReadEvent.readFail, ReadEvent.readFail,
       ReadEvent.readOk,
       ReadEvent.readFail, ReadEvent.readFail, ReadEvent.readFail,
       ReadEvent.readFail, ReadEvent.readFail] = 6 ∧
    (capture_run 0
      [ReadEvent.readFail, ReadEvent.readFail, ReadEvent.readFail,
       ReadEvent.readFail, ReadEvent.readFail, ReadEvent.readFail,
       ReadEvent.readOk,
       ReadEvent.readFail, ReadEvent.readFail, ReadEvent.readFail,
       ReadEvent.readFail, ReadEvent.readFail]).2 = 1 ∧
    capture_iteration 5 ReadEvent.readOk = (5, false) := by decide

/-- Claim C2 (amended): the failure counter counts CUMULATIVE failed
iterations since the last reinitialization — a successful read leaves it
unchanged rather than resetting it.  Reinitialization fires exactly when
the counter exceeds 10 (on the 11th accumulated failure): that iteration
performs exactly one reinitialize and resets the counter to 0, and the
counter never exceeds 10 between iterations. -/
theorem capture_loop_failure_threshold (f : Nat) (hf : f ≤ 10) :
    capture_iteration f ReadEvent.readOk = (f, false) ∧
    (f < 10 → capture_iteration f ReadEvent.readFail = (f + 1, false)) ∧
    (f = 10 → capture_iteration f ReadEvent.readFail = (0, true)) ∧
    (∀ evs : List ReadEvent, (capture_run f evs).1 ≤ 10) := by
  refine ⟨?_, ?_, ?_, fun evs => capture_run_le evs f hf⟩
  · unfold capture_iteration bump_failures
    rw [if_neg (Nat.not_lt.mpr hf)]
  · intro h
    unfold capture_iteration bump_failures
    rw [if_neg (Nat.not_lt.mpr (Nat.succ_le_of_lt (Nat.lt_of_lt_of_le h (by norm_num))))]
  · intro h
    subst h
    decide

/-- Witness for C2 (amended) at the threshold value 10. -/
theorem capture_loop_failure_threshold_witness :
    capture_iteration 10 ReadEvent.readOk = (10, false) ∧
    capture_iteration 10 ReadEvent.readFail = (0, true) ∧
    (capture_run 10 [ReadEvent.readFail, ReadEvent.readFail]).1 ≤ 10 :=
  ⟨(capture_loop_failure_threshold 10 (by decide)).1,
   (capture_loop_failure_threshold 10 (by decide)).2.2.1 rfl,
   (capture_loop_failure_threshold 10 (by decide)).2.2.2
     [ReadEvent.readFail, ReadEvent.readFail]⟩

/-! ## The preview frame queue (`get_latest_frame`) -/

/-- Encoded JPEG buffers, modelled as abstract tokens. -/
abbrev Frame := Nat

/-- The `while not empty: frame = get_nowait()` loop of
`get_latest_frame`: pops every queued frame, remembering the newest. -/
def drain_queue : Option Frame → List Frame → Option Frame × List Frame
  | acc, [] => (acc, [])
  | _, f :: rest => drain_queue (some f) rest

/-- Embeds `ThreadSafeCameraController.get_latest_frame()`: drains the
bounded frame queue (front of the list = oldest frame) and returns the
newest frame, or `none` when the queue is empty; also returns the queue
as left behind. -/
def get_latest_frame (q : List Frame) : Option Frame × List Frame :=
  drain_queue none q

theorem drain_queue_eq (acc : Option Frame) (q : List Frame) :
    drain_queue acc q =
      ((match q.getLast? with
        | some x => some x
        | none => acc), []) := by
  induction q generalizing acc with
  | nil => rfl
  | cons f rest ih =>
    rw [drain_queue, ih]
    cases rest with
    | nil => rfl
    | cons g t =>
      rw [List.getLast?_cons_cons]
      cases hr : (g :: t).getLast? with
      | some x => rfl
      | none =>
        rw [List.getLast?_eq_none_iff] at hr
        exact absurd hr (List.cons_ne_nil g t)

/-- Counterexample to claim C6: `get_latest_frame` is not an idempotent
peek.  With one frame queued and no new arrivals, the first read returns
it but the second read returns `none` — the read consumes the queue. -/
theorem get_latest_frame_counterexample :
    (get_latest_frame [7]).1 = some 7 ∧
    (get_latest_frame (get_latest_frame [7]).2).1 = none := by decide

/-- Claim C6 (amended): `get_latest_frame` never blocks or errors (it is
a total function of the queue), and it is a destructive drain, not a
peek: it empties the queue and returns the newest queued frame (`none`
on an empty queue), so a second read with no new arrivals returns
`none` rather than the last-delivered frame.  (The HTTP preview loop
compensates by skipping empty reads.) -/
theorem get_latest_frame_drain_semantics (q : List Frame) :
    get_latest_frame q = (q.getLast?, []) ∧
    (get_latest_frame (get_latest_frame q).2).1 = none := by
  have h := drain_queue_eq none q
  have h1 : get_latest_frame q = (q.getLast?, []) := by
    rw [get_latest_frame, h]
    cases q.getLast? <;> rfl
  refine ⟨h1, ?_⟩
  rw [h1]
  rfl

/-! ## Timelapse numbering (`TimeLapseCapturer.capture_loop`) -/

/-- Embeds the body of `TimeLapseCapturer.capture_loop`: state is the
local `count` and `next_capture`; each successfully dequeued frame
arrives at wall-clock time `now`; `if now >= next_capture` one image
numbered `count` is written, `count` is incremented, and the deadline
moves to `now + interval`.  Returns the image numbers written, in
order. -/
def timelapse_run (interval : Nat) (count next_capture : Nat) :
    List Nat → List Nat
  | [] => []
  | now :: rest =>
    if next_capture ≤ now then
      count :: timelapse_run interval (count + 1) (now + interval) rest
    else
      timelapse_run interval count next_capture rest

/-- One run of `capture_loop` as spawned by `start()`: the local counter
starts at 0 and the first deadline is the loop's start time. -/
def capture_loop_indices (interval start : Nat) (times : List Nat) :
    List Nat :=
  timelapse_run interval 0 start times

/-- Python `f"frame_{count:05d}"`: decimal, left-padded with zeros to
width 5. -/
def zero_pad_5 (n : Nat) : String :=
  let s := toString n
  String.mk (List.replicate (5 - s.length) '0') ++ s

/-- `os.path.join(self.output_dir, f"frame_{count:05d}.jpg")`. -/
def frame_filename (dir : String) (n : Nat) : String :=
  dir ++ "/frame_" ++ zero_pad_5 n ++ ".jpg"

/-- The files written by one run of `capture_loop`. -/
def capture_loop_files (dir : String) (interval start : Nat)
    (times : List Nat) : List String :=
  (capture_loop_indices interval start times).map (frame_filename dir)

theorem timelapse_run_indices (interval : Nat) (times : List Nat)
    (c next : Nat) :
    timelapse_run interval c next times =
      List.range' c (timelapse_run interval c next times).length := by
  induction times generalizing c next with
  | nil => rfl
  | cons now rest ih =>
    by_cases h : next ≤ now
    · simp only [timelapse_run, if_pos h, List.length_cons, List.range'_succ]
      exact congrArg (c :: ·) (ih (c + 1) (now + interval))
    · simp only [timelapse_run, if_neg h]
      exact ih c next

/-- Counterexample to claim C8: image numbers ARE re-used across
start/stop cycles.  `count` is a local of `capture_loop`, re-created at 0
by every `start()`, so two one-shot runs in the same process both write
`timelapse/frame_00000.jpg`. -/
theorem timelapse_numbering_counterexample :
    capture_loop_files "timelapse" 5 0 [0] =
      ["timelapse/frame_00000.jpg"] ∧
    capture_loop_files "timelapse" 5 100 [100] =
      ["timelapse/frame_00000.jpg"] := by
  exact ⟨rfl, rfl⟩

/-- Claim C8 (amended): within a single run, timelapse images are
sequentially numbered 0, 1, 2, … (exactly `List.range k` for `k` samples,
one file per sample) and filenames are zero-padded to five digits; but
the counter does not persist across start/stop cycles — each `start()`
spawns `capture_loop` afresh with `count = 0`, so numbers are re-used
(files overwritten) across cycles within a process lifetime. -/
theorem timelapse_numbering (dir : String) (interval start : Nat)
    (times : List Nat) :
    ∃ k, capture_loop_indices interval start times = List.range k ∧
      capture_loop_files dir interval start times =
        (List.range k).map (frame_filename dir) := by
  refine ⟨(capture_loop_indices interval start times).length, ?_, ?_⟩
  · rw [List.range_eq_range']
    exact timelapse_run_indices interval times 0 start
  · unfold capture_loop_files
    rw [show capture_loop_indices interval start times =
        List.range (capture_loop_indices interval start times).length by
      rw [List.range_eq_range']
      exact timelapse_run_indices interval times 0 start]
    rw [List.length_range]

/-! ## The video recorder (`VideoRecorder`) -/

/-- The mutable `VideoRecorder` state: the `recording` flag, the
`output_file` path, and whether a writer handle is held. -/
structure RecorderState where
  recording : Bool
  output_file : Option String
  writer : Bool
deriving DecidableEq, Repr

/-- Embeds `VideoRecorder.start(filename=None, fps=15)`: a silent no-op
when already recording; otherwise derives the filename from the
timestamp `ts` when none is given, opens the writer, records the output
path and sets the flag.  (Frame size and fps only parameterize the
writer and are not part of the observable state.) -/
def recorder_start (s : RecorderState) (filename : Option String)
    (ts : String) : RecorderState :=
  if s.recording then s
  else
    { recording := true,
      output_file := some (match filename with
        | some f => f
        | none => "videos/record_" ++ ts ++ ".avi"),
      writer := true }

/-- Embeds `VideoRecorder.stop()`: clears the flag, joins the thread,
releases the writer (sets it to `None`), and returns `output_file` —
which is NOT cleared, so a later call returns the same path. -/
def recorder_stop (s : RecorderState) : Option String × RecorderState :=
  (s.output_file, { s with recording := false, writer := false })

/-- Claim C9: `start` is a silent no-op when already recording; after a
fresh `start`, `stop` returns the output path (the given filename, or
the timestamp-derived one) and ends the recording; and `stop` is
idempotent — a second consecutive `stop` raises nothing and returns the
same (previous) result with the same final state. -/
theorem recorder_start_stop (s : RecorderState) (f : Option String)
    (ts : String) (h : s.recording = true) :
    recorder_start s f ts = s ∧
    (∀ s₀ : RecorderState, s₀.recording = false →
      (recorder_stop (recorder_start s₀ f ts)).1 =
        some (match f with
          | some n => n
          | none => "videos/record_" ++ ts ++ ".avi") ∧
      (recorder_stop (recorder_start s₀ f ts)).2.recording = false) ∧
    (∀ s₁ : RecorderState,
      recorder_stop (recorder_stop s₁).2 =
        ((recorder_stop s₁).1, (recorder_stop s₁).2)) := by
  refine ⟨by simp [recorder_start, h], ?_, ?_⟩
  · intro s₀ h₀
    constructor
    · simp [recorder_start, recorder_stop, h₀]
    · simp [recorder_start, recorder_stop, h₀]
  · intro s₁
    rfl

/-- Witness for C9 at a concrete recorder state. -/
theorem recorder_start_stop_witness :
    recorder_start ⟨true, some "videos/a.avi", true⟩ none "20250101_000000" =
      (⟨true, some "videos/a.avi", true⟩ : RecorderState) ∧
    (recorder_stop (recorder_start ⟨false, none, false⟩ none
      "20250101_000000")).1 = some "videos/record_20250101_000000.avi" :=
  ⟨(recorder_start_stop ⟨true, some "videos/a.avi", true⟩ none
      "20250101_000000" rfl).1,
   ((recorder_start_stop ⟨true, some "videos/a.avi", true⟩ none
      "20250101_000000" rfl).2.1 ⟨false, none, false⟩ rfl).1⟩

/-! ## Applying calculated defaults (`set_default_values`) -/

/-- The observable outcome of one `set_default_values` run: the final
`controls_info` (after the hardware re-read and the default-entry
overwrite), the final `stored_defaults`, the `failed_controls` list (in
append order), and the trace of `set_control_value` invocations
`(name, value)` in call order. -/
structure ApplyReport where
  controls : Controls
  stored : List (String × Int)
  failed : List String
  trace : List (String × Int)

/-- First pass of `set_default_values`: every control except the two
exposure-dependent ones is applied in defaults order, threading
`controls_info` through; failures are collected, never aborting. -/
def first_pass (applyOk : String → Int → Bool) :
    Controls → List (String × Int) →
      Controls × List String × List (String × Int)
  | cs, [] => (cs, [], [])
  | cs, (n, v) :: rest =>
    if n = "auto_exposure" ∨ n = "exposure_time_absolute" then
      first_pass applyOk cs rest
    else
      let r := set_control_value cs n v (applyOk n v)
      let t := first_pass applyOk r.2 rest
      (t.1, (if r.1 then t.2.1 else n :: t.2.1), (n, v) :: t.2.2)

/-- Second pass of `set_default_values`: if `auto_exposure` has a
calculated default, it is forced to manual mode (1, not the calculated
default); only on success is `stored_defaults['auto_exposure']` updated
to 1 and the dependent `exposure_time_absolute` applied (at its
calculated default). -/
def second_pass (applyOk : String → Int → Bool) (cs : Controls)
    (stored : List (String × Int)) (defaults : List (String × Int)) :
    ApplyReport :=
  match alookup defaults "auto_exposure" with
  | none => ⟨cs, stored, [], []⟩
  | some _ =>
    let rA := set_control_value cs "auto_exposure" 1 (applyOk "auto_exposure" 1)
    if rA.1 then
      let stored' := aset stored "auto_exposure" 1
      match alookup defaults "exposure_time_absolute" with
      | some v =>
        let rE := set_control_value rA.2 "exposure_time_absolute" v
          (applyOk "exposure_time_absolute" v)
        ⟨rE.2, stored', if rE.1 then [] else ["exposure_time_absolute"],
          [("auto_exposure", 1), ("exposure_time_absolute", v)]⟩
      | none => ⟨rA.2, stored', [], [("auto_exposure", 1)]⟩
    else
      ⟨rA.2, stored, ["auto_exposure"], [("auto_exposure", 1)]⟩

/-- The `self.controls_info[name]['default'] = working_default` update. -/
def setDefault : Controls → String → Int → Controls
  | [], _, _ => []
  | (n, c) :: rest, name, value =>
    if n = name then (n, { c with default := value }) :: rest
    else (n, c) :: setDefault rest name value

/-- The final loop of `set_default_values`: every calculated default's
entry in the re-read `controls_info` has its `default` overwritten with
the stored (working) default, falling back to the calculated one. -/
def overwrite_defaults (stored : List (String × Int)) :
    Controls → List (String × Int) → Controls
  | cs, [] => cs
  | cs, (n, cv) :: rest =>
    match alookup cs n with
    | some _ =>
      overwrite_defaults stored (setDefault cs n ((alookup stored n).getD cv)) rest
    | none => overwrite_defaults stored cs rest

/-- Embeds `ThreadSafeCameraController.set_default_values()`.  `controls`
is `controls_info` on entry, `stored` is `stored_defaults` on entry,
`applyOk` is the hardware oracle for each `v4l2-ctl --set-ctrl`
invocation, and `reread` is the control map returned by the
`get_camera_controls()` re-read after the applies. -/
def set_default_values (controls : Controls) (stored : List (String × Int))
    (applyOk : String → Int → Bool) (reread : Controls) : ApplyReport :=
  let defaults := calculate_default_values controls
  let p1 := first_pass applyOk controls defaults
  let p2 := second_pass applyOk p1.1 stored defaults
  { controls := overwrite_defaults p2.stored reread defaults,
    stored := p2.stored,
    failed := p1.2.1 ++ p2.failed,
    trace := p1.2.2 ++ p2.trace }

theorem first_pass_trace_names (applyOk : String → Int → Bool)
    (cs : Controls) (ds : List (String × Int)) :
    ∀ e ∈ (first_pass applyOk cs ds).2.2,
      e.1 ≠ "auto_exposure" ∧ e.1 ≠ "exposure_time_absolute" := by
  induction ds generalizing cs with
  | nil => intro e he; simp [first_pass] at he
  | cons p rest ih =>
    obtain ⟨n, v⟩ := p
    by_cases hn : n = "auto_exposure" ∨ n = "exposure_time_absolute"
    · intro e he
      rw [first_pass, if_pos hn] at he
      exact ih cs e he
    · intro e he
      rw [first_pass, if_neg hn] at he
      push_neg at hn
      simp only [List.mem_cons] at he
      rcases he with he | he
      · subst he; exact hn
      · exact ih _ e he

theorem first_pass_failed_names (applyOk : String → Int → Bool)
    (cs : Controls) (ds : List (String × Int)) :
    ∀ n ∈ (first_pass applyOk cs ds).2.1,
      n ≠ "auto_exposure" ∧ n ≠ "exposure_time_absolute" := by
  induction ds generalizing cs with
  | nil => intro n hn; simp [first_pass] at hn
  | cons p rest ih =>
    obtain ⟨m, v⟩ := p
    by_cases hm : m = "auto_exposure" ∨ m = "exposure_time_absolute"
    · intro n hn
      rw [first_pass, if_pos hm] at hn
      exact ih cs n hn
    · intro n hn
      rw [first_pass, if_neg hm] at hn
      push_neg at hm
      by_cases hr : (set_control_value cs m v (applyOk m v)).1
      · simp only [if_pos hr] at hn
        exact ih _ n hn
      · simp only [if_neg hr, List.mem_cons] at hn
        rcases hn with hn | hn
        · subst hn; exact hm
        · exact ih _ n hn

theorem first_pass_no_abort (applyOk : String → Int → Bool)
    (cs : Controls) (ds : List (String × Int)) :
    ∀ p ∈ ds, p.1 ≠ "auto_exposure" → p.1 ≠ "exposure_time_absolute" →
      p ∈ (first_pass applyOk cs ds).2.2 := by
  induction ds generalizing cs with
  | nil => intro p hp; simp at hp
  | cons q rest ih =>
    obtain ⟨m, v⟩ := q
    intro p hp h1 h2
    by_cases hm : m = "auto_exposure" ∨ m = "exposure_time_absolute"
    · rw [first_pass, if_pos hm]
      simp only [List.mem_cons] at hp
      rcases hp with hp | hp
      · exfalso
        subst hp
        rcases hm with hm | hm
        · exact h1 hm
        · exact h2 hm
      · exact ih cs p hp h1 h2
    · rw [first_pass, if_neg hm]
      simp only [List.mem_cons] at hp
      rcases hp with hp | hp
      · subst hp; exact List.mem_cons_self _ _
      · exact List.mem_cons_of_mem _ (ih _ p hp h1 h2)

theorem second_pass_shape (applyOk : String → Int → Bool) (cs : Controls)
    (stored : List (String × Int)) (ds : List (String × Int)) (a v : Int)
    (hA : alookup ds "auto_exposure" = some a)
    (hE : alookup ds "exposure_time_absolute" = some v) :
    ((second_pass applyOk cs stored ds).trace =
        [("auto_exposure", 1), ("exposure_time_absolute", v)] ∨
      (second_pass applyOk cs stored ds).trace = [("auto_exposure", 1)]) ∧
    (("exposure_time_absolute" ∈
        (second_pass applyOk cs stored ds).trace.map Prod.fst) ↔
      "auto_exposure" ∉ (second_pass applyOk cs stored ds).failed) := by
  unfold second_pass
  rw [hA]
  by_cases hr : (set_control_value cs "auto_exposure" 1
      (applyOk "auto_exposure" 1)).1
  · simp only [if_pos hr, hE]
    refine ⟨Or.inl trivial, ?_⟩
    constructor
    · intro _
      by_cases he : (set_control_value
          (set_control_value cs "auto_exposure" 1 (applyOk "auto_exposure" 1)).2
          "exposure_time_absolute" v (applyOk "exposure_time_absolute" v)).1
      · simp [if_pos he]
      · simp [if_neg he]
    · intro _
      simp
  · simp only [if_neg hr]
    refine ⟨Or.inr trivial, ?_⟩
    simp

/-- Claim C7: `set_default_values` first applies every control default
other than the exposure pair (in defaults order, continuing past
individual failures and collecting them), then applies the exposure-mode
control `auto_exposure` (forced to 1), and applies the dependent
`exposure_time_absolute` if and only if the `auto_exposure` write
succeeded (observable as `auto_exposure` being absent from the failed
list); the failed list records the failures and its length is the
reported count. -/
theorem set_default_values_exposure_dependency (controls : Controls)
    (stored : List (String × Int)) (applyOk : String → Int → Bool)
    (reread : Controls) (a v : Int)
    (hA : alookup (calculate_default_values controls) "auto_exposure" = some a)
    (hE : alookup (calculate_default_values controls) "exposure_time_absolute" =
      some v) :
    (∀ p ∈ calculate_default_values controls,
      p.1 ≠ "auto_exposure" → p.1 ≠ "exposure_time_absolute" →
        p ∈ (set_default_values controls stored applyOk reread).trace) ∧
    (∃ t₁ t₂, (set_default_values controls stored applyOk reread).trace =
        t₁ ++ t₂ ∧
      (∀ e ∈ t₁, e.1 ≠ "auto_exposure" ∧ e.1 ≠ "exposure_time_absolute") ∧
      (t₂ = [("auto_exposure", 1), ("exposure_time_absolute", v)] ∨
        t₂ = [("auto_exposure", 1)])) ∧
    (("exposure_time_absolute" ∈
        (set_default_values controls stored applyOk reread).trace.map
          Prod.fst) ↔
      "auto_exposure" ∉ (set_default_values controls stored applyOk
        reread).failed) := by
  have hshape := second_pass_shape applyOk
    (first_pass applyOk controls (calculate_default_values controls)).1
    stored (calculate_default_values controls) a v hA hE
  refine ⟨?_, ?_, ?_⟩
  · intro p hp h1 h2
    have := first_pass_no_abort applyOk controls
      (calculate_default_values controls) p hp h1 h2
    exact List.mem_append_left _ this
  · refine ⟨(first_pass applyOk controls (calculate_default_values controls)).2.2,
      (second_pass applyOk
        (first_pass applyOk controls (calculate_default_values controls)).1
        stored (calculate_default_values controls)).trace, rfl,
      first_pass_trace_names applyOk controls (calculate_default_values controls),
      ?_⟩
    rcases hshape.1 with h | h
    · exact Or.inl h
    · exact Or.inr h
  · have hp1t := first_pass_trace_names applyOk controls
      (calculate_default_values controls)
    have hp1f := first_pass_failed_names applyOk controls
      (calculate_default_values controls)
    constructor
    · intro hmem hcontra
      simp only [set_default_values, List.mem_append] at hcontra
      rcases hcontra with hc | hc
      · exact (hp1f _ hc).1 rfl
      · show False
        have hmem' : "exposure_time_absolute" ∈
            (second_pass applyOk
              (first_pass applyOk controls (calculate_default_values controls)).1
              stored (calculate_default_values controls)).trace.map Prod.fst := by
          simp only [set_default_values, List.map_append, List.mem_append]
            at hmem
          rcases hmem with hm | hm
          · exfalso
            rw [List.mem_map] at hm
            obtain ⟨e, he, hfst⟩ := hm
            exact (hp1t e he).2 hfst
          · exact hm
        exact (hshape.2.mp hmem') hc
    · intro hnotf
      have hnf2 : "auto_exposure" ∉
          (second_pass applyOk
            (first_pass applyOk controls (calculate_default_values controls)).1
            stored (calculate_default_values controls)).failed := by
        intro hc
        exact hnotf (List.mem_append_right _ hc)
      have := hshape.2.mpr hnf2
      simp only [set_default_values, List.map_append, List.mem_append]
      exact Or.inr this

/-- Witness for C7 on a concrete registry where both exposure controls
are present and all hardware applies succeed. -/
theorem set_default_values_exposure_dependency_witness :
    (alookup (calculate_default_values
        [("brightness", ⟨CtrlType.int, -64, 64, 1, 0, 0⟩),
         ("auto_exposure", ⟨CtrlType.menu, 0, 3, 1, 3, 3⟩),
         ("exposure_time_absolute", ⟨CtrlType.int, 1, 5000, 1, 157, 157⟩)])
      "auto_exposure" = some 1) ∧
    (("exposure_time_absolute" ∈
        (set_default_values
          [("brightness", ⟨CtrlType.int, -64, 64, 1, 0, 0⟩),
           ("auto_exposure", ⟨CtrlType.menu, 0, 3, 1, 3, 3⟩),
           ("exposure_time_absolute", ⟨CtrlType.int, 1, 5000, 1, 157, 157⟩)]
          [] (fun _ _ => true) []).trace.map Prod.fst) ↔
      "auto_exposure" ∉
        (set_default_values
          [("brightness", ⟨CtrlType.int, -64, 64, 1, 0, 0⟩),
           ("auto_exposure", ⟨CtrlType.menu, 0, 3, 1, 3, 3⟩),
           ("exposure_time_absolute", ⟨CtrlType.int, 1, 5000, 1, 157, 157⟩)]
          [] (fun _ _ => true) []).failed) :=
  ⟨by decide,
    (set_default_values_exposure_dependency
      [("brightness", ⟨CtrlType.int, -64, 64, 1, 0, 0⟩),
       ("auto_exposure", ⟨CtrlType.menu, 0, 3, 1, 3, 3⟩),
       ("exposure_time_absolute", ⟨CtrlType.int, 1, 5000, 1, 157, 157⟩)]
      [] (fun _ _ => true) [] 1 2500 (by decide) (by decide)).2.2⟩

/-! ## Session (re)initialization (`_initialize_camera`) -/

/-- The sort key of `sorted(resolutions, key=lambda x: (x[1], x[2]))`:
the (width, height) of a parsed `(format, width, height)` triple. -/
def resKey (r : String × Nat × Nat) : Nat × Nat := (r.2.1, r.2.2)

/-- Strict lexicographic comparison of (width, height) keys — Python
tuple `<`. -/
def keyLt (p q : Nat × Nat) : Prop :=
  p.1 < q.1 ∨ (p.1 = q.1 ∧ p.2 < q.2)

instance (p q : Nat × Nat) : Decidable (keyLt p q) := by
  unfold keyLt; infer_instance

/-- Stable sorted insertion: `x` goes before the first element not
strictly below it. -/
def insertRes (x : String × Nat × Nat) :
    List (String × Nat × Nat) → List (String × Nat × Nat)
  | [] => [x]
  | y :: rest =>
    if keyLt (resKey y) (resKey x) then y :: insertRes x rest
    else x :: y :: rest

/-- The `sorted(resolutions, key=lambda x: (x[1], x[2]))` step at the end
of `_get_supported_resolutions` (stable, ascending by (width, height)). -/
def sortRes (l : List (String × Nat × Nat)) : List (String × Nat × Nat) :=
  l.foldr insertRes []

theorem keyLt_irrefl (p : Nat × Nat) : ¬ keyLt p p := by
  unfold keyLt; omega

theorem keyLt_asymm {p q : Nat × Nat} (h : keyLt p q) : ¬ keyLt q p := by
  unfold keyLt at *; omega

theorem keyLt_of_keyLt_of_not_keyLt {p q r : Nat × Nat} (h1 : keyLt p q)
    (h2 : ¬ keyLt r q) : keyLt p r := by
  unfold keyLt at *; omega

theorem mem_insertRes {z x : String × Nat × Nat}
    {l : List (String × Nat × Nat)} :
    z ∈ insertRes x l ↔ z = x ∨ z ∈ l := by
  induction l with
  | nil => simp [insertRes]
  | cons y rest ih =>
    unfold insertRes
    by_cases h : keyLt (resKey y) (resKey x)
    · rw [if_pos h]
      simp only [List.mem_cons, ih]
      tauto
    · rw [if_neg h]
      simp only [List.mem_cons]

theorem mem_sortRes {z : String × Nat × Nat}
    {l : List (String × Nat × Nat)} : z ∈ sortRes l ↔ z ∈ l := by
  induction l with
  | nil => simp [sortRes]
  | cons a t ih =>
    show z ∈ insertRes a (sortRes t) ↔ _
    rw [mem_insertRes, ih]
    simp

theorem sortRes_eq_nil {l : List (String × Nat × Nat)}
    (h : sortRes l = []) : l = [] := by
  cases l with
  | nil => rfl
  | cons a t =>
    exfalso
    have : a ∈ sortRes (a :: t) := mem_sortRes.mpr (List.mem_cons_self a t)
    rw [h] at this
    exact List.not_mem_nil a this

theorem sortRes_head_min :
    ∀ (l : List (String × Nat × Nat)) (x : String × Nat × Nat)
      (rest : List (String × Nat × Nat)), sortRes l = x :: rest →
      ∀ y ∈ l, ¬ keyLt (resKey y) (resKey x) := by
  intro l
  induction l with
  | nil => intro x rest h; simp [sortRes] at h
  | cons a t ih =>
    intro x rest h y hy
    have hstep : sortRes (a :: t) = insertRes a (sortRes t) := rfl
    rw [hstep] at h
    cases hs : sortRes t with
    | nil =>
      have ht : t = [] := sortRes_eq_nil hs
      rw [hs] at h
      unfold insertRes at h
      cases h
      subst ht
      rcases List.mem_singleton.mp hy with rfl
      exact keyLt_irrefl _
    | cons b t' =>
      rw [hs] at h
      unfold insertRes at h
      by_cases hb : keyLt (resKey b) (resKey a)
      · rw [if_pos hb] at h
        have hx : x = b := by
          have := congrArg (List.head? ·) h
          simp at this
          exact this.symm
        subst hx
        rcases List.mem_cons.mp hy with rfl | hyt
        · exact keyLt_asymm hb
        · exact ih x t' hs y hyt
      · rw [if_neg hb] at h
        have hx : x = a := by
          have := congrArg (List.head? ·) h
          simp at this
          exact this.symm
        subst hx
        rcases List.mem_cons.mp hy with rfl | hyt
        · exact keyLt_irrefl _
        · intro hcon
          exact absurd (keyLt_of_keyLt_of_not_keyLt hcon hb)
            (ih b t' hs y hyt)

deriving instance DecidableEq for Except

/-- The mutable controller state that `_initialize_camera` touches. -/
structure CamState where
  controls_info : Controls
  stored_defaults : List (String × Int)
  original_hardware_defaults : List (String × Int)
  supported_resolutions : List (String × Nat × Nat)
  current_width : Nat
  current_height : Nat
  current_format : String
deriving DecidableEq, Repr

/-- The device's answers during one `_initialize_camera` round: the
parsed `--list-formats-ext` triples (pre-sort), the parsed
`--list-ctrls` map, the per-write outcome of `--set-ctrl`, and the
`--list-ctrls` re-read done inside `set_default_values`. -/
structure InitEnv where
  resolutions : List (String × Nat × Nat)
  controls_read : Controls
  applyOk : String → Int → Bool
  controls_reread : Controls

/-- Embeds `ThreadSafeCameraController._initialize_camera()` for one
successful handle reopen under `env`.  `_get_supported_resolutions`
raising `"No supported resolutions found"` on an empty parse is the
error case (empty sorted list iff empty parse).  The method captures
`original_hardware_defaults` and seeds `stored_defaults` only when they
are still empty, runs `set_default_values`, and finally applies the
FIRST entry of the sorted supported list as the active resolution. -/
def initialize_camera (s : CamState) (env : InitEnv) :
    Except String CamState :=
  match sortRes env.resolutions with
  | [] => Except.error "No supported resolutions found"
  | first :: rest =>
    let controls := env.controls_read
    let ohd :=
      if s.original_hardware_defaults.isEmpty then
        controls.map (fun p => (p.1, p.2.default))
      else s.original_hardware_defaults
    let stored0 :=
      if s.stored_defaults.isEmpty then calculate_default_values controls
      else s.stored_defaults
    let r := set_default_values controls stored0 env.applyOk
      env.controls_reread
    Except.ok
      { controls_info := r.controls,
        stored_defaults := r.stored,
        original_hardware_defaults := ohd,
        supported_resolutions := first :: rest,
        current_width := first.2.1,
        current_height := first.2.2,
        current_format := first.1 }

/-- Claim C3: `original_hardware_defaults` is captured from the
hardware-reported defaults exactly at the first initialization (when the
map is still empty), and no subsequent reinitialization overwrites or
mutates it (the guard `if not self.original_hardware_defaults` keeps the
captured map), even though `set_default_values` overwrites the
`controls_info` default entries with calculated working defaults. -/
theorem original_hardware_defaults_once (s : CamState) (env : InitEnv)
    (s' : CamState) (h : initialize_camera s env = Except.ok s') :
    (s.original_hardware_defaults = [] →
      s'.original_hardware_defaults =
        env.controls_read.map (fun p => (p.1, p.2.default))) ∧
    (s.original_hardware_defaults ≠ [] →
      s'.original_hardware_defaults = s.original_hardware_defaults) := by
  unfold initialize_camera at h
  split at h
  · simp at h
  · simp only [Except.ok.injEq] at h
    subst h
    refine ⟨fun he => ?_, fun hne => ?_⟩
    · simp [he]
    · rcases hl : s.original_hardware_defaults with _ | ⟨p, t⟩
      · exact absurd hl hne
      · simp [hl]

/-- Witness for C3: a reinitialization (nonempty captured map) leaves the
captured hardware defaults untouched. -/
theorem original_hardware_defaults_once_witness :
    (([("gain", 77)] : List (String × Int)) ≠ []) ∧
    (CamState.mk [] [("gain", 50)] [("gain", 77)] [("MJPG", 640, 480)]
        640 480 "MJPG").original_hardware_defaults = [("gain", 77)] :=
  ⟨by decide,
    (original_hardware_defaults_once
      ⟨[], [("gain", 50)], [("gain", 77)], [], 1920, 1080, "MJPG"⟩
      ⟨[("MJPG", 640, 480)], [], fun _ _ => true, []⟩
      ⟨[], [("gain", 50)], [("gain", 77)], [("MJPG", 640, 480)],
        640, 480, "MJPG"⟩
      (by decide)).2 (by decide)⟩

/-- Counterexample to claim C5: reinitialization does NOT restore the
previously active resolution.  Here the session is at 1920×1080 MJPG,
that triple is still in the refreshed supported list, yet after
`_initialize_camera` the active resolution is the first (lowest)
supported one, 640×480. -/
theorem reinit_resolution_counterexample :
    ("MJPG", 1920, 1080) ∈ ([("MJPG", 640, 480), ("MJPG", 1920, 1080)] :
      List (String × Nat × Nat)) ∧
    (initialize_camera
        ⟨[], [], [("gain", 32)], [("MJPG", 640, 480), ("MJPG", 1920, 1080)],
          1920, 1080, "MJPG"⟩
        ⟨[("MJPG", 640, 480), ("MJPG", 1920, 1080)], [], fun _ _ => true,
          []⟩).map
      (fun st => (st.current_format, st.current_width, st.current_height)) =
      Except.ok ("MJPG", 640, 480) := by decide

/-- Claim C5 (amended): after any successful (re)initialization the
active (format, width, height) is ALWAYS the head of the supported list
sorted ascending by (width, height) — a supported triple, minimal in
that order; the previously active resolution is never restored, even
when it is still supported. -/
theorem reinit_applies_first_supported (s : CamState) (env : InitEnv)
    (s' : CamState) (h : initialize_camera s env = Except.ok s') :
    (s'.current_format, s'.current_width, s'.current_height) ∈
      env.resolutions ∧
    (∀ r ∈ env.resolutions,
      ¬ keyLt (resKey r)
        (resKey (s'.current_format, s'.current_width, s'.current_height))) ∧
    (∃ rest, sortRes env.resolutions =
      (s'.current_format, s'.current_width, s'.current_height) :: rest) := by
  unfold initialize_camera at h
  split at h
  · simp at h
  · next first rest heq =>
    simp only [Except.ok.injEq] at h
    subst h
    refine ⟨?_, ?_, ⟨rest, heq⟩⟩
    · exact mem_sortRes.mp (heq ▸ List.mem_cons_self first rest)
    · exact fun r hr => sortRes_head_min env.resolutions first rest heq r hr

/-- Witness for C5 (amended) on a concrete unsorted supported list. -/
theorem reinit_applies_first_supported_witness :
    (initialize_camera
      ⟨[], [], [("gain", 32)], [], 0, 0, "YUYV"⟩
      ⟨[("MJPG", 1920, 1080), ("MJPG", 640, 480)], [], fun _ _ => true,
        []⟩ =
      Except.ok ⟨[], [], [("gain", 32)],
        [("MJPG", 640, 480), ("MJPG", 1920, 1080)], 640, 480, "MJPG"⟩) ∧
    ("MJPG", 640, 480) ∈ ([("MJPG", 1920, 1080), ("MJPG", 640, 480)] :
      List (String × Nat × Nat)) :=
  ⟨by decide,
    (reinit_applies_first_supported
      ⟨[], [], [("gain", 32)], [], 0, 0, "YUYV"⟩
      ⟨[("MJPG", 1920, 1080), ("MJPG", 640, 480)], [], fun _ _ => true, []⟩
      ⟨[], [], [("gain", 32)],
        [("MJPG", 640, 480), ("MJPG", 1920, 1080)], 640, 480, "MJPG"⟩
      (by decide)).1⟩

end CameraServer
